import Mathlib

/-!
Verification development for the custom-table repository: a shallow embedding of
the course-card extractor (parser.py) and the schedule grid generator
(gen_schedule.py), together with theorems about the claims of the design
document.  Machine integers do not occur (Python ints are unbounded); times are
minute counts as natural numbers.  Code that can raise a Python exception is
modelled with Option, none standing for an uncaught exception.
-/

namespace CustomTable

/-! ### Python string primitives

The Python string operations used by the two scripts (split, replace, in,
strip, int(), "%02d" formatting and strptime with the "%H:%M" format) are
modelled over the character list of a String.  Each model notes the exact
Python behaviour it captures.
-/

/-- Decimal digit value of a character, none for a non-digit. -/
def digitVal? (c : Char) : Option Nat :=
  if 48 ≤ c.toNat ∧ c.toNat ≤ 57 then some (c.toNat - 48) else none

def digitsValAux : List Char → Nat → Option Nat
  | [], acc => some acc
  | c :: cs, acc =>
    match digitVal? c with
    | some d => digitsValAux cs (acc * 10 + d)
    | none => none

/-- Models Python int(s) on the strings this pipeline feeds it: a nonempty
run of decimal digits parses to its value, anything else raises ValueError
(modelled none).  Signs and surrounding whitespace, which int() would also
accept, never reach these call sites. -/
def pyInt? (s : String) : Option Nat :=
  if s.toList.isEmpty then none else digitsValAux s.toList 0

/-- Models Python membership test pat in s (substring containment). -/
def hasSubstrChars (pat : List Char) : List Char → Bool
  | [] => pat.isEmpty
  | c :: cs => pat.isPrefixOf (c :: cs) || hasSubstrChars pat cs

def pyContains (s pat : String) : Bool :=
  hasSubstrChars pat.toList s.toList

/-- Models Python s.replace(pat, repl): every non-overlapping occurrence of
pat, scanned left to right, is replaced.  Only called with a nonempty pat.
The second argument counts characters of an already-matched occurrence still
to be consumed, so the recursion is structural on the text. -/
def replaceGo (pat repl : List Char) : List Char → Nat → List Char
  | [], _ => []
  | _ :: cs, skip + 1 => replaceGo pat repl cs skip
  | c :: cs, 0 =>
    if pat.isPrefixOf (c :: cs) ∧ pat ≠ [] then
      repl ++ replaceGo pat repl cs (pat.length - 1)
    else
      c :: replaceGo pat repl cs 0

def replaceChars (pat repl : List Char) (l : List Char) : List Char :=
  replaceGo pat repl l 0

def pyReplace (s pat repl : String) : String :=
  String.mk (replaceChars pat.toList repl.toList s.toList)

/-- Models Python s.split(sep) for a nonempty sep: the pieces between the
non-overlapping occurrences of sep, scanned left to right; always at least
one (possibly empty) piece.  The Nat argument counts characters of an
already-matched separator still to be consumed. -/
def splitGo (sep : List Char) : List Char → Nat → List (List Char)
  | [], _ => [[]]
  | _ :: cs, skip + 1 => splitGo sep cs skip
  | c :: cs, 0 =>
    if sep.isPrefixOf (c :: cs) ∧ sep ≠ [] then
      [] :: splitGo sep cs (sep.length - 1)
    else
      match splitGo sep cs 0 with
      | [] => [[c]]
      | p :: ps => (c :: p) :: ps

def splitChars (sep l : List Char) : List (List Char) :=
  splitGo sep l 0

def pySplit (s sep : String) : List String :=
  (splitChars sep.toList s.toList).map String.mk

/-- The whitespace stripped by Python str.strip() that can occur here. -/
def isSpaceChar (c : Char) : Bool :=
  c == ' ' || c == '\t' || c == '\n' || c == '\r'

/-- Models Python s.strip(): drop leading and trailing whitespace. -/
def pyStrip (s : String) : String :=
  String.mk (((s.toList.dropWhile isSpaceChar).reverse.dropWhile isSpaceChar).reverse)

/-- Models datetime.strptime(s, "%H:%M"): one or two digits for the hour
(0 to 23), a colon, one or two digits for the minute (0 to 59), and nothing
else; any other string raises ValueError (modelled none). -/
def strptimeHM (s : String) : Option (Nat × Nat) :=
  match pySplit s ":" with
  | [hs, ms] =>
    match pyInt? hs, pyInt? ms with
    | some h, some m =>
      if hs.toList.length ≤ 2 ∧ ms.toList.length ≤ 2 ∧ h < 24 ∧ m < 60 then
        some (h, m)
      else none
    | _, _ => none
  | _ => none

/-- The character of a decimal digit. -/
def digitChar (n : Nat) : Char := Char.ofNat (48 + n)

def pad2List (n : Nat) : List Char := [digitChar (n / 10), digitChar (n % 10)]

/-- Models the Python format "%02d" for values below 100. -/
def pad2 (n : Nat) : String := String.mk (pad2List n)

/-- An HH:MM time string with two-digit fields, as produced by the
f-string "{h:02d}:{m:02d}" in parser.py and by strftime("%H:%M"). -/
def fmtHM (h m : Nat) : String := String.mk (pad2List h ++ [':'] ++ pad2List m)

/-! ### Data model

One extracted course record, with the eight string fields emitted by
parser.py.  The Python dict key "section" is a Lean keyword, hence the
field name sectionLabel. -/

structure CourseRecord where
  day : String
  start : String
  duration : String
  code : String
  title : String
  room : String
  type : String
  sectionLabel : String
deriving DecidableEq

/-! ### gen_schedule.py -/

/-- HOURS from gen_schedule.py line 4: the time axis, thirteen one-hour slots. -/
def HOURS : List Nat := [8, 9, 10, 11, 12, 13, 14, 15, 16, 17, 18, 19, 20]

/-- DAYS from gen_schedule.py line 5. -/
def DAYS : List String := ["MON", "TUE", "WED", "THU", "FRI", "SAT", "SUN"]

/-- time_to_colspan from gen_schedule.py lines 12-19: parses start with
strptime (may raise), unpacks duration.split(":") into exactly two ints
(may raise), and returns max 1 (total_minutes // 60) - a floor division. -/
def time_to_colspan (start duration : String) : Option Nat :=
  match strptimeHM start with
  | none => none
  | some _ =>
    match pySplit duration ":" with
    | [hs, ms] =>
      match pyInt? hs, pyInt? ms with
      | some h, some m => some (max 1 ((h * 60 + m) / 60))
      | _, _ => none
    | _ => none

/-- get_start_hour from gen_schedule.py lines 21-23: int(start.split(":")[0]),
which may raise on a non-numeric first component. -/
def get_start_hour (start : String) : Option Nat :=
  match pySplit start ":" with
  | [] => none
  | p :: _ => pyInt? p

/-- compute_end from gen_schedule.py lines 25-31: start plus duration on the
datetime clock, rendered with strftime("%H:%M"), so wrapping past midnight. -/
def compute_end (start duration : String) : Option String :=
  match strptimeHM start with
  | some sp =>
    match pySplit duration ":" with
    | [hs, ms] =>
      match pyInt? hs, pyInt? ms with
      | some h, some m =>
        some (fmtHM (((sp.1 * 60 + sp.2 + h * 60 + m) % 1440) / 60)
                    (((sp.1 * 60 + sp.2 + h * 60 + m) % 1440) % 60))
      | _, _ => none
    | _ => none
  | none => none

/-- One rendered position of a day row: a free-standing empty slot, or the
cell opening an occupied block of the given colspan. -/
inductive Cell where
  | empty : Cell
  | occupied (cls : CourseRecord) (span : Nat) : Cell
deriving DecidableEq

/-- Rendered width of a cell in slot units: 1 for an empty td, the colspan
for an occupied td. -/
def cellWidth : Cell → Nat
  | Cell.empty => 1
  | Cell.occupied _ s => s

/-- Total rendered width of a row in slot units. -/
def totalWidth (row : List Cell) : Nat := (row.map cellWidth).sum

/-- One iteration of the placement loop of generate_row (gen_schedule.py
lines 82-103).  The state is the pair (hour_ptr, cells emitted so far); h and
m are the parsed start hour and minute of the class (get_start_hour and
int(start.split(":")[1]), equal to the strptime components once the sort
succeeded) and span its colspan.  empty_slots_before is an int in Python and
may be negative, hence the Int subtraction. -/
def processClass (st : Nat × List Cell) (c : CourseRecord) (h m span : Nat) :
    Nat × List Cell :=
  let emptyBefore : Int := (h : Int) - (st.1 : Int)
  if 0 < m ∧ 0 ≤ emptyBefore then
    (h + span, st.2 ++ List.replicate emptyBefore.toNat Cell.empty ++ [Cell.occupied c span])
  else if 0 < emptyBefore then
    (h + span, st.2 ++ List.replicate emptyBefore.toNat Cell.empty ++ [Cell.occupied c span])
  else
    (st.1 + span, st.2 ++ [Cell.occupied c span])

/-- A class prepared for the placement loop: the record, its parsed start
hour and minute, and its colspan. -/
abbrev RowEntry := CourseRecord × Nat × Nat × Nat

def rowStep (st : Nat × List Cell) (e : RowEntry) : Nat × List Cell :=
  processClass st e.1 e.2.1 e.2.2.1 e.2.2.2

/-- The placement loop of generate_row started from an arbitrary state. -/
def rowLoopFrom (st : Nat × List Cell) (entries : List RowEntry) : Nat × List Cell :=
  entries.foldl rowStep st

/-- The placement loop of generate_row: hour_ptr starts at HOURS[0] with no
cells emitted. -/
def rowLoop (entries : List RowEntry) : Nat × List Cell :=
  rowLoopFrom (HOURS.headD 0, []) entries

/-- Ascending key of Python sorted(..., key=strptime): comparing the datetime
objects is comparing the (hour, minute) pairs, i.e. the minute counts. -/
def startKey (p : CourseRecord × (Nat × Nat)) : Nat := p.2.1 * 60 + p.2.2

/-- Insertion after all entries with a key at most the new key: combined with
the left fold below this is a stable ascending sort, as Python sorted is. -/
def insertSorted (x : CourseRecord × (Nat × Nat)) :
    List (CourseRecord × (Nat × Nat)) → List (CourseRecord × (Nat × Nat))
  | [] => [x]
  | y :: ys => if startKey x < startKey y then x :: y :: ys else y :: insertSorted x ys

def sortByStart (l : List (CourseRecord × (Nat × Nat))) :
    List (CourseRecord × (Nat × Nat)) :=
  l.foldl (fun acc x => insertSorted x acc) []

/-- The preparatory part of generate_row (gen_schedule.py lines 77-85): filter
the classes to the given day, sort them by strptime of the start (an
unparseable start raises inside the sort key, modelled none), and compute each
colspan (an unparseable start or duration raises, modelled none).  The hour
and minute of each entry are the components already validated by strptime. -/
def rowEntries (day : String) (classes : List CourseRecord) : Option (List RowEntry) :=
  match (classes.filter (fun c => c.day == day)).mapM
      (fun c => (strptimeHM c.start).map (fun p => (c, p))) with
  | none => none
  | some keyed =>
    (sortByStart keyed).mapM
      (fun p => (time_to_colspan p.1.start p.1.duration).map
        (fun s => (p.1, p.2.1, p.2.2, s)))

/-- generate_row from gen_schedule.py lines 60-111, abstracted from HTML text
to the list of emitted cells: the placement loop over the prepared entries,
then the tail loop `while hour_ptr <= HOURS[-1]` padding with empty cells
(21 - hour_ptr of them, none if the pointer overshot).  A Python exception
anywhere discards the row, modelled none. -/
def generate_row (day : String) (classes : List CourseRecord) : Option (List Cell) :=
  (rowEntries day classes).map
    (fun es => (rowLoop es).2 ++
      List.replicate (HOURS.getLastD 0 + 1 - (rowLoop es).1) Cell.empty)

/-! ### parser.py

BeautifulSoup locates the elements of one course card; what
parse_html_to_json then reads from them is the stripped text of each located
element.  A Card holds exactly those texts, none when the marker element is
absent; the HTML traversal itself (find and find_all) is the library boundary
of the model, everything after it follows parser.py lines 23-104. -/

structure Card where
  dayText : Option String
  timeText : Option String
  codeText : Option String
  cutWordTexts : List String
  roomParentText : Option String
  typeBadgeText : Option String
  sectionText : Option String
deriving DecidableEq

/-- parser.py lines 30-52: start time and duration from the time-range text.
The two-variable unpacking of time_range.split(" - ") sits outside the try
block, so a text with more than one " - " raises an uncaught ValueError
(modelled none).  start_time is assigned the stripped first part before the
try, so it keeps that raw text even when strptime fails; only the strptime
calls are guarded, a failure leaving duration as "N/A".  When the end time is
earlier than the start, one day is added before subtracting, and the duration
is rendered "{hours:02d}:{minutes:02d}". -/
def extract_time (time_range : String) : Option (String × String) :=
  if pyContains time_range " - " then
    match pySplit time_range " - " with
    | [start_str, end_str] =>
      match strptimeHM (pyStrip start_str), strptimeHM (pyStrip end_str) with
      | some sp, some ep =>
        some (pyStrip start_str,
          fmtHM ((((if ep.1 * 60 + ep.2 < sp.1 * 60 + sp.2
                    then ep.1 * 60 + ep.2 + 1440
                    else ep.1 * 60 + ep.2) - (sp.1 * 60 + sp.2))) / 60)
                ((((if ep.1 * 60 + ep.2 < sp.1 * 60 + sp.2
                    then ep.1 * 60 + ep.2 + 1440
                    else ep.1 * 60 + ep.2) - (sp.1 * 60 + sp.2))) % 60))
      | _, _ => some (pyStrip start_str, "N/A")
    | _ => none
  else
    some ("N/A", "N/A")

/-- The per-card body of parse_html_to_json, parser.py lines 23-104: every
field falls back to the sentinel "N/A" when its marker is missing; the room
text of the parent of the label span is stripped of the first matching label
vocabulary by str.replace (which replaces all occurrences); the type badge
text is mapped to Lecture or Laboratory by equality against both
vocabularies, any other text passing through. -/
def parse_card (card : Card) : Option CourseRecord :=
  match extract_time (card.timeText.getD "N/A") with
  | none => none
  | some sd =>
    some
      { day := card.dayText.getD "N/A"
        start := sd.1
        duration := sd.2
        code := card.codeText.getD "N/A"
        title :=
          match card.cutWordTexts with
          | [] => "N/A"
          | t :: _ => t
        room :=
          match card.roomParentText with
          | none => "N/A"
          | some t =>
            if pyContains t "Room" then pyReplace t "Room" ""
            else if pyContains t "ห้อง" then pyReplace t "ห้อง" ""
            else "N/A"
        type :=
          if card.typeBadgeText.getD "N/A" == "บรรยาย"
              || card.typeBadgeText.getD "N/A" == "Lec" then "Lecture"
          else if card.typeBadgeText.getD "N/A" == "ปฏิบัติ"
              || card.typeBadgeText.getD "N/A" == "Lab" then "Laboratory"
          else card.typeBadgeText.getD "N/A"
        sectionLabel := card.sectionText.getD "N/A" }

/-- parse_html_to_json from parser.py, abstracted from the HTML document to the
located card texts and from the final json.dumps (which keeps the list order)
to the record list itself: one record per card, in document order; an uncaught
exception in any card aborts the whole call (modelled none). -/
def parse_html_to_json (cards : List Card) : Option (List CourseRecord) :=
  cards.mapM parse_card

/-! ### Concrete sample data used by counterexamples and witnesses -/

/-- A record with the given day, start and duration,
all display fields the sentinel. -/
def mkRec (d s du : String) : CourseRecord :=
  { day := d, start := s, duration := du, code := "N/A", title := "N/A",
    room := "N/A", type := "N/A", sectionLabel := "N/A" }

/-- A class from 20:00 for two hours: its block covers the last axis slot and
one more. -/
def recOverflow : CourseRecord := mkRec "MON" "20:00" "02:00"

/-- The round-trip sample record: Monday, 09:00, duration 01:30. -/
def recSample : CourseRecord := mkRec "MON" "09:00" "01:30"

/-- A record whose time field was unparseable: start and duration are the
sentinel. -/
def recNA : CourseRecord := mkRec "MON" "N/A" "N/A"

/-- A four-hour class from 08:00. -/
def recLong : CourseRecord := mkRec "MON" "08:00" "04:00"

/-- A one-hour class from 09:30, mid-slot start. -/
def recHalf : CourseRecord := mkRec "MON" "09:30" "01:00"

/-- A card with every marker element absent. -/
def emptyCard : Card :=
  { dayText := none, timeText := none, codeText := none, cutWordTexts := [],
    roomParentText := none, typeBadgeText := none, sectionText := none }

/-- A card whose time text contains the separator " - " twice. -/
def cardTwoSep : Card :=
  { emptyCard with timeText := some "a - b - c" }

/-- A card whose time text has one separator but unparseable parts. -/
def cardRawTime : Card :=
  { emptyCard with timeText := some "ab - cd" }

/-- An English-labelled card whose room text itself contains the label word
Room. -/
def cardEnTricky : Card :=
  { emptyCard with roomParentText := some "RoomRoom1", typeBadgeText := some "Lec" }

/-- The Thai-labelled card equivalent to cardEnTricky. -/
def cardThTricky : Card :=
  { emptyCard with roomParentText := some "ห้องRoom1", typeBadgeText := some "บรรยาย" }

/-! ### Helper lemmas -/

theorem strptimeHM_bounds {s : String} {h m : Nat}
    (hp : strptimeHM s = some (h, m)) : h < 24 ∧ m < 60 := by
  unfold strptimeHM at hp
  split at hp
  · split at hp
    · split at hp
      · simp only [Option.some.injEq, Prod.mk.injEq] at hp
        obtain ⟨rfl, rfl⟩ := hp
        omega
      · exact absurd hp (by simp)
    · exact absurd hp (by simp)
  · exact absurd hp (by simp)

theorem digitVal?_digitChar {x : Nat} (hx : x < 10) :
    digitVal? (digitChar x) = some x := by
  interval_cases x <;> decide

theorem colon_beq_digitChar {x : Nat} (hx : x < 10) :
    ((':' : Char) == digitChar x) = false := by
  interval_cases x <;> decide

theorem isSpaceChar_digitChar {x : Nat} (hx : x < 10) :
    isSpaceChar (digitChar x) = false := by
  interval_cases x <;> decide

theorem splitGo_colon_digits {a b c d : Char}
    (ha : ((':' : Char) == a) = false) (hb : ((':' : Char) == b) = false)
    (hc : ((':' : Char) == c) = false) (hd : ((':' : Char) == d) = false) :
    splitGo [':'] [a, b, ':', c, d] 0 = [[a, b], [c, d]] := by
  simp [splitGo, List.isPrefixOf, ha, hb, hc, hd]

theorem pySplit_fmtHM (h m : Nat) (hh : h < 100) (hm : m < 100) :
    pySplit (fmtHM h m) ":" = [pad2 h, pad2 m] := by
  have e : pySplit (fmtHM h m) ":" =
      (splitGo [':'] (pad2List h ++ [':'] ++ pad2List m) 0).map String.mk := rfl
  rw [e]
  simp only [pad2List, List.cons_append, List.nil_append]
  rw [splitGo_colon_digits (colon_beq_digitChar (by omega))
    (colon_beq_digitChar (by omega)) (colon_beq_digitChar (by omega))
    (colon_beq_digitChar (by omega))]
  rfl

theorem pyInt?_pad2 (n : Nat) (hn : n < 100) : pyInt? (pad2 n) = some n := by
  have e : pyInt? (pad2 n) = digitsValAux (pad2List n) 0 := rfl
  rw [e]
  simp only [pad2List, digitsValAux, digitVal?_digitChar (show n / 10 < 10 by omega),
    digitVal?_digitChar (show n % 10 < 10 by omega)]
  congr 1
  omega

theorem strptimeHM_fmtHM (h m : Nat) (hh : h < 24) (hm : m < 60) :
    strptimeHM (fmtHM h m) = some (h, m) := by
  unfold strptimeHM
  rw [pySplit_fmtHM h m (by omega) (by omega)]
  simp only [pyInt?_pad2 h (by omega), pyInt?_pad2 m (by omega)]
  simp [pad2, pad2List, hh, hm]

theorem pyStrip_fmtHM (h m : Nat) (hh : h < 100) (hm : m < 100) :
    pyStrip (fmtHM h m) = fmtHM h m := by
  have e : pyStrip (fmtHM h m) = String.mk
      ((((pad2List h ++ [':'] ++ pad2List m).dropWhile isSpaceChar).reverse.dropWhile
        isSpaceChar).reverse) := rfl
  rw [e]
  simp only [pad2List, List.cons_append, List.nil_append, List.dropWhile,
    isSpaceChar_digitChar (show h / 10 < 10 by omega),
    isSpaceChar_digitChar (show m % 10 < 10 by omega)]
  simp [List.dropWhile, isSpaceChar_digitChar (show m % 10 < 10 by omega), fmtHM, pad2List]

theorem isPrefixOf_self_append (p r : List Char) : p.isPrefixOf (p ++ r) = true := by
  induction p with
  | nil => simp [List.isPrefixOf]
  | cons a as ih => simp [List.isPrefixOf, ih]

theorem replaceGo_of_no_substr {p : List Char} :
    ∀ {l : List Char}, hasSubstrChars p l = false → replaceGo p [] l 0 = l := by
  intro l
  induction l with
  | nil => intro _; rfl
  | cons c cs ih =>
    intro hl
    simp only [hasSubstrChars, Bool.or_eq_false_iff] at hl
    simp [replaceGo, hl.1, ih hl.2]

theorem replaceGo_skip {p r : List Char} :
    ∀ {l : List Char} {k : Nat}, replaceGo p r l (k + 1) = replaceGo p r (l.drop (k + 1)) 0 := by
  intro l
  induction l with
  | nil => intro k; rfl
  | cons c cs ih =>
    intro k
    cases k with
    | zero => rfl
    | succ k => simpa [replaceGo] using ih

theorem replaceChars_stripLabel {p r : List Char} (hp : p ≠ [])
    (hr : hasSubstrChars p r = false) : replaceChars p [] (p ++ r) = r := by
  obtain ⟨c, cs, rfl⟩ : ∃ c cs, p = c :: cs := by
    cases p with
    | nil => exact absurd rfl hp
    | cons c cs => exact ⟨c, cs, rfl⟩
  have hrest : replaceGo (c :: cs) [] (cs ++ r) cs.length =
      replaceGo (c :: cs) [] r 0 := by
    cases cs with
    | nil => rfl
    | cons d ds =>
      rw [show (d :: ds).length = ds.length + 1 by simp]
      rw [replaceGo_skip]
      congr 1
      simpa using List.drop_left ds r
  have hcond : (c :: cs).isPrefixOf (c :: (cs ++ r)) = true :=
    isPrefixOf_self_append (c :: cs) r
  show replaceGo (c :: cs) [] (c :: (cs ++ r)) 0 = r
  rw [replaceGo, if_pos ⟨hcond, by simp⟩]
  simp only [List.nil_append, List.length_cons, Nat.add_sub_cancel]
  rw [hrest]
  exact replaceGo_of_no_substr hr

theorem hasSubstr_Room_afterThai (r : List Char) :
    hasSubstrChars "Room".toList ("ห้อง".toList ++ r) =
      hasSubstrChars "Room".toList r := rfl

theorem hasSubstr_thai_afterRoom (r : List Char) :
    hasSubstrChars "ห้อง".toList ("Room".toList ++ r) =
      hasSubstrChars "ห้อง".toList r := rfl

theorem pyContains_labelFirst (lab r : String) (h : lab.toList ≠ []) :
    pyContains (lab ++ r) lab = true := by
  show hasSubstrChars lab.toList (lab.toList ++ r.toList) = true
  cases hR : lab.toList with
  | nil => exact absurd hR h
  | cons c cs => simp [hasSubstrChars, isPrefixOf_self_append]

theorem pyReplace_labelFirst (lab r : String) (hlab : lab.toList ≠ [])
    (h : pyContains r lab = false) : pyReplace (lab ++ r) lab "" = r := by
  show String.mk (replaceChars lab.toList [] (lab.toList ++ r.toList)) = r
  rw [replaceChars_stripLabel hlab h]
  rfl

theorem processClass_shift (st : Nat × List Cell) (c : CourseRecord) (h m s : Nat) :
    totalWidth (processClass st c h m s).2 + st.1 =
      totalWidth st.2 + (processClass st c h m s).1 ∧
    st.1 ≤ (processClass st c h m s).1 := by
  unfold processClass
  dsimp only
  split_ifs with h1 h2
  all_goals simp [totalWidth, cellWidth, List.map_append, List.sum_append,
    List.map_replicate, List.sum_replicate]
  all_goals omega

theorem rowLoopFrom_shift (es : List RowEntry) :
    ∀ st : Nat × List Cell,
      totalWidth (rowLoopFrom st es).2 + st.1 =
        totalWidth st.2 + (rowLoopFrom st es).1 ∧
      st.1 ≤ (rowLoopFrom st es).1 := by
  induction es with
  | nil => intro st; simp [rowLoopFrom]
  | cons e es ih =>
    intro st
    have h1 : totalWidth (rowStep st e).2 + st.1 =
        totalWidth st.2 + (rowStep st e).1 ∧ st.1 ≤ (rowStep st e).1 :=
      processClass_shift st e.1 e.2.1 e.2.2.1 e.2.2.2
    have h2 := ih (rowStep st e)
    have he : rowLoopFrom st (e :: es) = rowLoopFrom (rowStep st e) es := rfl
    rw [he]
    exact ⟨by omega, by omega⟩

/-! ### Claim C1: slot coverage of a generated row -/

/-- Claim C1, counterexample: the claimed invariant (total rendered width
always equals the axis length 13) fails on the code.  A two-hour class
starting at 20:00, the last axis hour, yields a Monday row of total width 14:
twelve empty cells plus one occupied cell of colspan 2, because the tail loop
stops as soon as hour_ptr passes HOURS[-1] but nothing truncates a block that
overshoots the axis. -/
theorem claim1_counterexample :
    (generate_row "MON" [recOverflow]).map totalWidth = some 14 ∧
    (generate_row "MON" [recOverflow]).map totalWidth ≠ some 13 := by
  exact ⟨by decide, by decide⟩

/-- Claim C1, amended: whenever generate_row succeeds, the total rendered
width of the row equals max 13 (p - 8) where p is the final hour pointer of
the placement loop; in particular the width is exactly the axis length 13
whenever the loop never pushes the pointer past 21, i.e. whenever no occupied
block extends beyond the end of the axis. -/
theorem claim1_theorem (day : String) (classes : List CourseRecord)
    (es : List RowEntry) (row : List Cell)
    (h1 : rowEntries day classes = some es)
    (h2 : generate_row day classes = some row) :
    totalWidth row = max 13 ((rowLoop es).1 - 8) ∧
    ((rowLoop es).1 ≤ 21 → totalWidth row = 13) := by
  unfold generate_row at h2
  rw [h1] at h2
  simp only [Option.map, Option.some.injEq] at h2
  subst h2
  have hs : totalWidth (rowLoop es).2 + 8 = totalWidth ([] : List Cell) + (rowLoop es).1 ∧
      8 ≤ (rowLoop es).1 := rowLoopFrom_shift es (8, [])
  have hlast : HOURS.getLastD 0 = 20 := rfl
  rw [hlast]
  simp only [totalWidth, List.map_append, List.sum_append, List.map_replicate,
    cellWidth, List.sum_replicate, smul_eq_mul, mul_one, List.map_nil,
    List.sum_nil] at hs ⊢
  rw [Nat.max_def]
  split_ifs with hc
  · omega
  · omega

/-- Claim C1, witness: the amended theorem applied to the one-class Monday
schedule of recSample, whose row has width exactly 13. -/
theorem claim1_witness :
    totalWidth (Cell.empty :: Cell.occupied recSample 1 :: List.replicate 11 Cell.empty) =
      max 13 ((rowLoop [(recSample, 9, 0, 1)]).1 - 8) ∧
    ((rowLoop [(recSample, 9, 0, 1)]).1 ≤ 21 →
      totalWidth (Cell.empty :: Cell.occupied recSample 1 :: List.replicate 11 Cell.empty) = 13) :=
  claim1_theorem "MON" [recSample] [(recSample, 9, 0, 1)]
    (Cell.empty :: Cell.occupied recSample 1 :: List.replicate 11 Cell.empty)
    (by decide) (by decide)

/-! ### Claim C2: duration to colspan -/

/-- Claim C2, code evaluation: the claim (and the comment in
time_to_colspan itself) say the colspan is the ceiling of duration over one
hour, minimum 1, so 01:30 should give 2 and 02:01 should give 3; the code
computes the floor max 1 (total_minutes // 60), giving 1 and 2.  On an exact
multiple of the granularity (02:00) floor and ceiling agree. -/
theorem claim2_theorem :
    time_to_colspan "09:00" "01:30" = some 1 ∧
    time_to_colspan "09:00" "02:01" = some 2 ∧
    time_to_colspan "09:00" "02:00" = some 2 := by
  exact ⟨by decide, by decide, by decide⟩

/-! ### Claim C3: the round-trip sample -/

/-- Claim C3, counterexample: the claimed Monday row for the sample record
(two empty cells, a span-3 block, 21 empty cells, width 26 on a 26-slot
half-hour axis) is not what the code produces: the code has a 13-slot
one-hour axis, so the width of the generated row is 13, not 26. -/
theorem claim3_counterexample :
    (generate_row "MON" [recSample]).map totalWidth ≠ some 26 := by
  decide

/-- Claim C3, amended: on the axis of the code - thirteen one-hour slots
from 08:00 to 20:00 - the Monday row for the record with start 09:00 and
duration 01:30 is one empty cell (08:00), one occupied cell of colspan 1
(09:00, the floor of 90 minutes over 60), and eleven trailing empty cells,
for a total width of 13. -/
theorem claim3_theorem :
    generate_row "MON" [recSample] =
      some (Cell.empty :: Cell.occupied recSample 1 :: List.replicate 11 Cell.empty) ∧
    (generate_row "MON" [recSample]).map totalWidth = some 13 := by
  exact ⟨by decide, by decide⟩

/-! ### Claim C4: unparseable time fields -/

/-- Claim C4, code evaluation: a record whose start is the sentinel "N/A"
does not make generate_row skip it; the strptime call inside the sort key of
line 80 raises ValueError, so the whole row generation fails (modelled none)
instead of completing with the record occupying zero slots. -/
theorem claim4_theorem : generate_row "MON" [recNA] = none := by
  decide

/-! ### Claim C8: clamping and cursor monotonicity -/

/-- Claim C8: when the parsed start hour of a class lies strictly before the
current hour pointer, both gap-fill branches are skipped, so no empty cells
are emitted for it and the pointer only advances by the colspan (the gap is
clamped to zero); a single placement step never decreases the pointer, and
the pointer is non-decreasing across the whole placement loop. -/
theorem claim8_theorem (st : Nat × List Cell) (c : CourseRecord) (h m s : Nat)
    (es : List RowEntry) :
    (h < st.1 → processClass st c h m s = (st.1 + s, st.2 ++ [Cell.occupied c s])) ∧
    st.1 ≤ (processClass st c h m s).1 ∧
    st.1 ≤ (rowLoopFrom st es).1 := by
  refine ⟨?_, (processClass_shift st c h m s).2, (rowLoopFrom_shift es st).2⟩
  intro hlt
  unfold processClass
  dsimp only
  rw [if_neg (by omega : ¬(0 < m ∧ (0 : Int) ≤ (h : Int) - (st.1 : Int)))]
  rw [if_neg (by omega : ¬((0 : Int) < (h : Int) - (st.1 : Int)))]

/-- Claim C8, witness: the theorem applied at a pointer of 10 and a class
with parsed start hour 9 (a start of 09:30 after a block ending at 10:00):
the clamped step emits only the occupied cell and advances the pointer by
the colspan. -/
theorem claim8_witness :
    processClass (10, ([] : List Cell)) recHalf 9 30 1 =
      (10 + 1, [] ++ [Cell.occupied recHalf 1]) ∧
    10 ≤ (processClass (10, ([] : List Cell)) recHalf 9 30 1).1 ∧
    10 ≤ (rowLoopFrom (10, ([] : List Cell)) [(recHalf, 9, 30, 1)]).1 := by
  have h := claim8_theorem (10, ([] : List Cell)) recHalf 9 30 1 [(recHalf, 9, 30, 1)]
  exact ⟨h.1 (by decide), h.2.1, h.2.2⟩

/-! ### Claim C5: round-down placement -/

/-- Claim C5, counterexample: the claim that an off-boundary record is always
placed at the slot boundary at or before its start fails when an earlier
overlapping class has already pushed the cursor past that boundary.  After a
four-hour class from 08:00 the cursor is at 12, so the 09:30 class is emitted
at the 12:00 slot - four slot units into the row - a boundary strictly later
than its start time of 570 minutes. -/
theorem claim5_counterexample :
    generate_row "MON" [recLong, recHalf] =
      some (Cell.occupied recLong 4 :: Cell.occupied recHalf 1 ::
        List.replicate 8 Cell.empty) ∧
    60 * 9 + 30 < 60 * (8 + totalWidth [Cell.occupied recLong 4]) := by
  exact ⟨by decide, by decide⟩

/-- Claim C5, amended: the alignment itself always rounds down, never up.
For a record whose start lies strictly inside an axis slot (hour H on the
axis, minute M at least 1) and whose placement is not obstructed by an
earlier record (here: it is the only record of its day), the block is emitted
exactly at slot H - after H - 8 empty cells - and the boundary of that slot
satisfies boundary <= start < next boundary; only when the cursor has already
passed the rounded-down slot does the clamped gap of claim C8 emit the block
later. -/
theorem claim5_theorem (c : CourseRecord) (d : String) (H M s : Nat)
    (hday : c.day = d) (hp : strptimeHM c.start = some (H, M))
    (hs : time_to_colspan c.start c.duration = some s)
    (hH8 : 8 ≤ H) (hH20 : H ≤ 20) (hM : 1 ≤ M) :
    generate_row d [c] =
      some (List.replicate (H - 8) Cell.empty ++ Cell.occupied c s ::
        List.replicate (21 - (H + s)) Cell.empty) ∧
    60 * H ≤ 60 * H + M ∧ 60 * H + M < 60 * (H + 1) := by
  have hb := strptimeHM_bounds hp
  refine ⟨?_, by omega, by omega⟩
  subst hday
  have hpc : processClass (8, ([] : List Cell)) c H M s =
      (H + s, List.replicate (H - 8) Cell.empty ++ [Cell.occupied c s]) := by
    unfold processClass
    dsimp only
    rw [if_pos ⟨by omega, by omega⟩]
    have ht : ((H : Int) - (8 : Nat)).toNat = H - 8 := by omega
    rw [ht]
    simp
  have hentries : rowEntries c.day [c] = some [(c, H, M, s)] := by
    unfold rowEntries
    have hf : [c].filter (fun x => x.day == c.day) = [c] := by simp
    rw [hf]
    simp only [List.mapM_cons, List.mapM_nil, hp, Option.map_some]
    simp only [Option.bind_some, Option.some_bind, pure]
    simp [sortByStart, insertSorted, List.mapM.loop, hs]
  unfold generate_row
  rw [hentries]
  have hrl : rowLoop [(c, H, M, s)] = processClass (8, ([] : List Cell)) c H M s := rfl
  simp only [Option.map, hrl, hpc, Option.some.injEq]
  have hlast : HOURS.getLastD 0 = 20 := rfl
  rw [hlast]
  simp [List.append_assoc]

/-- Claim C5, witness: the amended theorem applied to the 09:30 class alone
on Monday: its block sits at slot 9, one empty cell into the row, and
540 <= 570 < 600. -/
theorem claim5_witness :
    generate_row "MON" [recHalf] =
      some (List.replicate (9 - 8) Cell.empty ++ Cell.occupied recHalf 1 ::
        List.replicate (21 - (9 + 1)) Cell.empty) ∧
    60 * 9 ≤ 60 * 9 + 30 ∧ 60 * 9 + 30 < 60 * (9 + 1) :=
  claim5_theorem recHalf "MON" 9 30 1 rfl (by decide) (by decide)
    (by decide) (by decide) (by decide)

/-! ### Claim C6: two-language equivalence -/

/-- Claim C6, counterexample: the equivalence fails when the room string
itself contains a label word.  With room payload Room1, the English card
text RoomRoom1 has every occurrence of Room removed, leaving 1; the Thai
card text prepended with the Thai label also matches the English branch
first (it contains Room) and loses only that occurrence, leaving the Thai
label glued to 1.  The two extracted room fields differ. -/
theorem claim6_counterexample :
    (parse_card cardEnTricky).map CourseRecord.room = some "1" ∧
    (parse_card cardThTricky).map CourseRecord.room = some "ห้อง1" ∧
    (parse_card cardEnTricky).map CourseRecord.room ≠
      (parse_card cardThTricky).map CourseRecord.room := by
  exact ⟨by decide, by decide, by decide⟩

/-- Claim C6, amended: for room payloads containing neither label word, an
English-labelled card (Room prefix on the room text) and the equivalent
Thai-labelled card (Thai room label prefix) extract to the same record with
room equal to the payload, for both type vocabularies: the Lec badge and the
Thai lecture badge both give type Lecture, and the Lab badge and the Thai
laboratory badge both give type Laboratory. -/
theorem claim6_theorem (dayT timeT codeT : Option String) (cuts : List String)
    (secT : Option String) (r st dur : String)
    (hr1 : pyContains r "Room" = false) (hr2 : pyContains r "ห้อง" = false)
    (ht : extract_time (timeT.getD "N/A") = some (st, dur)) :
    (∃ rec : CourseRecord,
      parse_card { dayText := dayT,
                   timeText := timeT,
                   codeText := codeT,
                   cutWordTexts := cuts,
                   roomParentText := some ("Room" ++ r),
                   typeBadgeText := some "Lec",
                   sectionText := secT } = some rec ∧
      parse_card { dayText := dayT,
                   timeText := timeT,
                   codeText := codeT,
                   cutWordTexts := cuts,
                   roomParentText := some ("ห้อง" ++ r),
                   typeBadgeText := some "บรรยาย",
                   sectionText := secT } = some rec ∧
      rec.room = r ∧ rec.type = "Lecture") ∧
    (∃ rec : CourseRecord,
      parse_card { dayText := dayT,
                   timeText := timeT,
                   codeText := codeT,
                   cutWordTexts := cuts,
                   roomParentText := some ("Room" ++ r),
                   typeBadgeText := some "Lab",
                   sectionText := secT } = some rec ∧
      parse_card { dayText := dayT,
                   timeText := timeT,
                   codeText := codeT,
                   cutWordTexts := cuts,
                   roomParentText := some ("ห้อง" ++ r),
                   typeBadgeText := some "ปฏิบัติ",
                   sectionText := secT } = some rec ∧
      rec.room = r ∧ rec.type = "Laboratory") := by
  have c1 : pyContains ("Room" ++ r) "Room" = true :=
    pyContains_labelFirst "Room" r (by decide)
  have c2 : pyReplace ("Room" ++ r) "Room" "" = r :=
    pyReplace_labelFirst "Room" r (by decide) hr1
  have c3 : pyContains ("ห้อง" ++ r) "Room" = false := by
    show hasSubstrChars "Room".toList ("ห้อง".toList ++ r.toList) = false
    rw [hasSubstr_Room_afterThai]
    exact hr1
  have c4 : pyContains ("ห้อง" ++ r) "ห้อง" = true :=
    pyContains_labelFirst "ห้อง" r (by decide)
  have c5 : pyReplace ("ห้อง" ++ r) "ห้อง" "" = r :=
    pyReplace_labelFirst "ห้อง" r (by decide) hr2
  constructor
  · refine ⟨{ day := dayT.getD "N/A",
              start := st,
              duration := dur,
              code := codeT.getD "N/A",
              title := match cuts with | [] => "N/A" | t :: _ => t,
              room := r,
              type := "Lecture",
              sectionLabel := secT.getD "N/A" }, ?_, ?_, rfl, rfl⟩
    · unfold parse_card
      rw [ht]
      simp only [c1, c2, if_true]
      simp [show (("Lec" : String) == "บรรยาย") = false by decide,
        show (("Lec" : String) == "Lec") = true by decide]
    · unfold parse_card
      rw [ht]
      simp only [c3, c4, c5]
      simp [show (("บรรยาย" : String) == "บรรยาย") = true by decide]
  · refine ⟨{ day := dayT.getD "N/A",
              start := st,
              duration := dur,
              code := codeT.getD "N/A",
              title := match cuts with | [] => "N/A" | t :: _ => t,
              room := r,
              type := "Laboratory",
              sectionLabel := secT.getD "N/A" }, ?_, ?_, rfl, rfl⟩
    · unfold parse_card
      rw [ht]
      simp only [c1, c2, if_true]
      simp [show (("Lab" : String) == "บรรยาย") = false by decide,
        show (("Lab" : String) == "Lec") = false by decide,
        show (("Lab" : String) == "ปฏิบัติ") = false by decide,
        show (("Lab" : String) == "Lab") = true by decide]
    · unfold parse_card
      rw [ht]
      simp only [c3, c4, c5]
      simp [show (("ปฏิบัติ" : String) == "บรรยาย") = false by decide,
        show (("ปฏิบัติ" : String) == "Lec") = false by decide,
        show (("ปฏิบัติ" : String) == "ปฏิบัติ") = true by decide]

/-- Claim C6, witness: the amended theorem at concrete card pairs with room
payload E204 and a parseable 09:00 to 10:30 time range, covering both the
lecture and the laboratory badge vocabularies. -/
theorem claim6_witness :
    (∃ rec : CourseRecord,
      parse_card { dayText := some "MON",
                   timeText := some "09:00 - 10:30",
                   codeText := some "C101",
                   cutWordTexts := ["Prog"],
                   roomParentText := some ("Room" ++ "E204"),
                   typeBadgeText := some "Lec",
                   sectionText := some "700" } = some rec ∧
      parse_card { dayText := some "MON",
                   timeText := some "09:00 - 10:30",
                   codeText := some "C101",
                   cutWordTexts := ["Prog"],
                   roomParentText := some ("ห้อง" ++ "E204"),
                   typeBadgeText := some "บรรยาย",
                   sectionText := some "700" } = some rec ∧
      rec.room = "E204" ∧ rec.type = "Lecture") ∧
    (∃ rec : CourseRecord,
      parse_card { dayText := some "MON",
                   timeText := some "09:00 - 10:30",
                   codeText := some "C101",
                   cutWordTexts := ["Prog"],
                   roomParentText := some ("Room" ++ "E204"),
                   typeBadgeText := some "Lab",
                   sectionText := some "700" } = some rec ∧
      parse_card { dayText := some "MON",
                   timeText := some "09:00 - 10:30",
                   codeText := some "C101",
                   cutWordTexts := ["Prog"],
                   roomParentText := some ("ห้อง" ++ "E204"),
                   typeBadgeText := some "ปฏิบัติ",
                   sectionText := some "700" } = some rec ∧
      rec.room = "E204" ∧ rec.type = "Laboratory") :=
  claim6_theorem (some "MON") (some "09:00 - 10:30") (some "C101") ["Prog"]
    (some "700") "E204" "09:00" "01:30" (by decide) (by decide) (by decide)

/-! ### Claims C7 and C10: time-range extraction and the end-time round trip -/

theorem extract_time_spec (tr a b : String) (sh sm eh em : Nat)
    (hc : pyContains tr " - " = true)
    (hsplit : pySplit tr " - " = [a, b])
    (hs : strptimeHM (pyStrip a) = some (sh, sm))
    (he : strptimeHM (pyStrip b) = some (eh, em)) :
    extract_time tr = some (pyStrip a,
      fmtHM (((if eh * 60 + em < sh * 60 + sm then eh * 60 + em + 1440
               else eh * 60 + em) - (sh * 60 + sm)) / 60)
            (((if eh * 60 + em < sh * 60 + sm then eh * 60 + em + 1440
               else eh * 60 + em) - (sh * 60 + sm)) % 60)) := by
  unfold extract_time
  rw [if_pos hc, hsplit]
  simp only [hs, he]

/-- Claim C7: a time-range field that splits on the separator into two parts
both parsed by strptime yields start equal to the stripped first part and a
formatted duration that, added to the start, gives the end time modulo 24
hours - the crossing-midnight reading - with no failure and a duration below
24 hours. -/
theorem claim7_theorem (tr a b : String) (sh sm eh em : Nat)
    (hc : pyContains tr " - " = true)
    (hsplit : pySplit tr " - " = [a, b])
    (hs : strptimeHM (pyStrip a) = some (sh, sm))
    (he : strptimeHM (pyStrip b) = some (eh, em)) :
    ∃ dh dm : Nat,
      extract_time tr = some (pyStrip a, fmtHM dh dm) ∧
      dh < 24 ∧ dm < 60 ∧
      (sh * 60 + sm + (dh * 60 + dm)) % 1440 = eh * 60 + em := by
  have hsb := strptimeHM_bounds hs
  have heb := strptimeHM_bounds he
  refine ⟨_, _, extract_time_spec tr a b sh sm eh em hc hsplit hs he, ?_, ?_, ?_⟩
  · split_ifs with hlt <;> omega
  · omega
  · split_ifs with hlt <;> omega

/-- Claim C7, witness: the overnight sample 23:00 to 02:00 produces duration
03:00, a positive three-hour span and no parse failure. -/
theorem claim7_witness :
    ∃ dh dm : Nat,
      extract_time "23:00 - 02:00" = some (pyStrip "23:00", fmtHM dh dm) ∧
      dh < 24 ∧ dm < 60 ∧
      (23 * 60 + 0 + (dh * 60 + dm)) % 1440 = 2 * 60 + 0 :=
  claim7_theorem "23:00 - 02:00" "23:00" "02:00" 23 0 2 0
    (by decide) (by decide) (by decide) (by decide)

/-- Claim C10: the renderer inverts the extractor on the end time.  For a
time-range text splitting into two strptime-parseable parts whose second part
is in canonical two-digit HH:MM form, compute_end applied to the extracted
start and duration returns exactly that original end string, the datetime
arithmetic wrapping past midnight just as the extraction added 24 hours. -/
theorem claim10_theorem (tr a b : String) (sh sm eh em : Nat)
    (hc : pyContains tr " - " = true)
    (hsplit : pySplit tr " - " = [a, b])
    (hs : strptimeHM (pyStrip a) = some (sh, sm))
    (he : strptimeHM (pyStrip b) = some (eh, em))
    (hb : b = fmtHM eh em) :
    ∃ st dur : String,
      extract_time tr = some (st, dur) ∧ compute_end st dur = some b := by
  have hsb := strptimeHM_bounds hs
  have heb := strptimeHM_bounds he
  set t : Nat := (if eh * 60 + em < sh * 60 + sm then eh * 60 + em + 1440
    else eh * 60 + em) - (sh * 60 + sm) with hT
  have htlt : t < 1440 := by
    rw [hT]
    split_ifs <;> omega
  refine ⟨pyStrip a, fmtHM (t / 60) (t % 60),
    extract_time_spec tr a b sh sm eh em hc hsplit hs he, ?_⟩
  unfold compute_end
  rw [hs, pySplit_fmtHM (t / 60) (t % 60) (by omega) (by omega)]
  dsimp only
  rw [pyInt?_pad2 (t / 60) (by omega), pyInt?_pad2 (t % 60) (by omega)]
  have h1 : (sh * 60 + sm + t / 60 * 60 + t % 60) % 1440 = eh * 60 + em := by
    have ht60 : t / 60 * 60 + t % 60 = t := by omega
    have hflat : sh * 60 + sm + t / 60 * 60 + t % 60 = sh * 60 + sm + t := by omega
    rw [hflat, hT]
    split_ifs <;> omega
  rw [hb]
  simp only [h1]
  have h2 : (eh * 60 + em) / 60 = eh := by omega
  have h3 : (eh * 60 + em) % 60 = em := by omega
  rw [h2, h3]

/-- Claim C10, witness: the overnight range 23:00 to 02:00 round-trips, the
rendered end label being exactly the source end string 02:00. -/
theorem claim10_witness :
    ∃ st dur : String,
      extract_time "23:00 - 02:00" = some (st, dur) ∧
      compute_end st dur = some "02:00" :=
  claim10_theorem "23:00 - 02:00" "23:00" "02:00" 23 0 2 0
    (by decide) (by decide) (by decide) (by decide) (by decide)

/-! ### Claim C9: one record per card, local failures -/

theorem parse_html_to_json_spec (cards : List Card) :
    ∀ recs : List CourseRecord, parse_html_to_json cards = some recs →
      recs.length = cards.length ∧
      ∀ (i : Nat) (hi : i < cards.length) (hr : i < recs.length),
        parse_card (cards.get ⟨i, hi⟩) = some (recs.get ⟨i, hr⟩) := by
  induction cards with
  | nil =>
    intro recs h
    have hz : recs = [] := by
      have he : parse_html_to_json ([] : List Card) = some [] := rfl
      rw [he] at h
      exact (Option.some.injEq _ _).mp h.symm
    subst hz
    exact ⟨rfl, fun i hi _ => absurd hi (by simp)⟩
  | cons c cs ih =>
    intro recs h
    unfold parse_html_to_json at h
    rw [List.mapM_cons] at h
    cases hc : parse_card c with
    | none =>
      rw [hc] at h
      exact absurd h (by simp)
    | some r =>
      rw [hc] at h
      cases hcs : cs.mapM parse_card with
      | none =>
        rw [hcs] at h
        exact absurd h (by simp)
      | some rs =>
        rw [hcs] at h
        simp at h
        subst h
        obtain ⟨hlen, hget⟩ := ih rs hcs
        refine ⟨by simp [hlen], ?_⟩
        intro i hi hr
        cases i with
        | zero => simpa using hc
        | succ n =>
          have hn : n < cs.length := by simpa using hi
          have hrn : n < rs.length := by simpa using hlen ▸ hn
          simpa using hget n hn hrn

theorem parse_card_defaults (card : Card) (rec : CourseRecord)
    (h : parse_card card = some rec) :
    (card.dayText = none → rec.day = "N/A") ∧
    (card.codeText = none → rec.code = "N/A") ∧
    (card.cutWordTexts = [] → rec.title = "N/A") ∧
    (card.roomParentText = none → rec.room = "N/A") ∧
    (card.typeBadgeText = none → rec.type = "N/A") ∧
    (card.sectionText = none → rec.sectionLabel = "N/A") ∧
    (card.timeText = none → rec.start = "N/A" ∧ rec.duration = "N/A") := by
  unfold parse_card at h
  cases hext : extract_time (card.timeText.getD "N/A") with
  | none =>
    rw [hext] at h
    exact absurd h (by simp)
  | some sd =>
    rw [hext] at h
    simp only [Option.some.injEq] at h
    subst h
    refine ⟨?_, ?_, ?_, ?_, ?_, ?_, ?_⟩
    · intro hn; simp [hn]
    · intro hn; simp [hn]
    · intro hn; simp [hn]
    · intro hn; simp [hn]
    · intro hn
      simp [hn, show (("N/A" : String) == "บรรยาย") = false from by decide,
        show (("N/A" : String) == "Lec") = false from by decide,
        show (("N/A" : String) == "ปฏิบัติ") = false from by decide,
        show (("N/A" : String) == "Lab") = false from by decide]
    · intro hn; simp [hn]
    · intro hn
      rw [hn] at hext
      have hna : extract_time ((none : Option String).getD "N/A") =
          some ("N/A", "N/A") := by decide
      rw [hna] at hext
      have hsd : ("N/A", "N/A") = sd := (Option.some.injEq _ _).mp hext
      exact ⟨by rw [← hsd], by rw [← hsd]⟩

/-- Claim C9, counterexample: two failures of the claim as stated.  First, a
document is not always mapped to one record per card: a card whose time text
contains the separator twice makes the two-variable unpacking of
split(" - ") raise, aborting the whole extraction, including the record of
the healthy first card.  Second, a present but unparseable time with a
single separator does not leave the time fields as the sentinel: the start
field keeps the raw first part (here ab), only the duration falls back. -/
theorem claim9_counterexample :
    parse_html_to_json [emptyCard, cardTwoSep] = none ∧
    (parse_card cardRawTime).map CourseRecord.start = some "ab" ∧
    (parse_card cardRawTime).map CourseRecord.start ≠ some "N/A" := by
  exact ⟨by decide, by decide, by decide⟩

/-- Claim C9, amended: when no card raises (in particular when every time
text splits on the separator into at most two parts), the extractor emits
exactly one record per card, in document order, and each record depends only
on its own card; a card with every marker missing yields the all-sentinel
record; and each individually missing marker yields the sentinel in exactly
its own field, the time fields both falling back to the sentinel only when
the time marker itself is missing (a present unparseable range keeps its raw
start text). -/
theorem claim9_theorem :
    (∀ (cards : List Card) (recs : List CourseRecord),
      parse_html_to_json cards = some recs →
      recs.length = cards.length ∧
      ∀ (i : Nat) (hi : i < cards.length) (hr : i < recs.length),
        parse_card (cards.get ⟨i, hi⟩) = some (recs.get ⟨i, hr⟩)) ∧
    parse_card emptyCard = some (mkRec "N/A" "N/A" "N/A") ∧
    (∀ (card : Card) (rec : CourseRecord), parse_card card = some rec →
      (card.dayText = none → rec.day = "N/A") ∧
      (card.codeText = none → rec.code = "N/A") ∧
      (card.cutWordTexts = [] → rec.title = "N/A") ∧
      (card.roomParentText = none → rec.room = "N/A") ∧
      (card.typeBadgeText = none → rec.type = "N/A") ∧
      (card.sectionText = none → rec.sectionLabel = "N/A") ∧
      (card.timeText = none → rec.start = "N/A" ∧ rec.duration = "N/A")) :=
  ⟨fun cards recs h => parse_html_to_json_spec cards recs h,
   by decide,
   fun card rec h => parse_card_defaults card rec h⟩

/-- Claim C9, witness: the amended theorem applied to the one-card document
consisting of the all-missing card: one record, the all-sentinel one, at
position zero. -/
theorem claim9_witness :
    ([mkRec "N/A" "N/A" "N/A"] : List CourseRecord).length = [emptyCard].length ∧
    parse_card (([emptyCard] : List Card).get ⟨0, by decide⟩) =
      some (([mkRec "N/A" "N/A" "N/A"] : List CourseRecord).get ⟨0, by decide⟩) := by
  have h := claim9_theorem.1 [emptyCard] [mkRec "N/A" "N/A" "N/A"] (by decide)
  exact ⟨h.1, h.2 0 (by decide) (by decide)⟩

end CustomTable
